import Mathlib

/-!
Verification of the coordination engine of `BufferedInputStream`
(`src/input/BufferedInputStream.cxx`).

The shared state protected by the mutex is embedded as the structure
`BufferedInputStream` below.  The sparse storage buffer (external to the
fragment, consumed only through `Read`/`Write`/`Commit`) is modelled as a
list of per-byte "filled" flags of length `size`; `buffer.Read(i)` yields
the contiguous filled run starting at `i` (`runLen`), `buffer.Write(i)`
yields the contiguous unfilled span starting at `i` (`writeLen`), and
`buffer.Commit(a, b)` marks `[a, b)` filled (`commitRange`).

Blocking calls are embedded as single evaluation passes with explicit
outcomes: `Read` is one pass of its wait loop (outcome `blocked` stands
for `client_cond.wait`), `Seek` covers the code up to the wait (outcome
`blocked` means the request was posted) and `seekResume` the code after
the wait has observed `seek == false`.  One iteration of the worker loop
`RunThread` is `workerStep`, parameterised by an `Env` snapshot of the
underlying input stream for that iteration (its position, availability,
EOF flag, and fault injection for its `Seek`/`Read` calls).  Condition
variable signals are reported in the outputs rather than stored.
-/

/-- Opaque cross-thread error value, standing for a `std::exception_ptr`. -/
abbrev Err := Nat

instance {ε α : Type} [DecidableEq ε] [DecidableEq α] : DecidableEq (Except ε α) := fun x y =>
  match x, y with
  | .ok a, .ok b => if h : a = b then .isTrue (by rw [h]) else .isFalse (by simp [h])
  | .ok _, .error _ => .isFalse (by simp)
  | .error _, .ok _ => .isFalse (by simp)
  | .error a, .error b => if h : a = b then .isTrue (by rw [h]) else .isFalse (by simp [h])

/-- Length of the leading run of `true` flags. -/
def runLenAux : List Bool → Nat
  | [] => 0
  | b :: t => if b then runLenAux t + 1 else 0

/-- Model of `buffer.Read(i)`: the length of the contiguous filled run
starting at absolute offset `i` (`0` when no data is present at `i`). -/
def runLen (buf : List Bool) (i : Nat) : Nat :=
  runLenAux (buf.drop i)

/-- Model of `buffer.Read(i).HasData()`. -/
def hasData (buf : List Bool) (i : Nat) : Bool :=
  runLen buf i != 0

/-- Length of the leading run of `false` flags. -/
def writeLenAux : List Bool → Nat
  | [] => 0
  | b :: t => if b then 0 else writeLenAux t + 1

/-- Model of `buffer.Write(i)`: the length of the writable span starting at
absolute offset `i` (`0` means the span is empty). -/
def writeLen (buf : List Bool) (i : Nat) : Nat :=
  writeLenAux (buf.drop i)

/-- Model of `buffer.Commit(a, b)`: mark the half-open range `[a, b)` as
filled. -/
def commitRange : List Bool → Nat → Nat → List Bool
  | [], _, _ => []
  | x :: t, a, b => (if a == 0 && b != 0 then true else x) :: commitRange t (a - 1) (b - 1)

/-- The shared mutable state of `BufferedInputStream`, protected by the
single coordination mutex: the logical cursor `offset`, the fixed stream
`size`, the sparse buffer contents `buf`, the coordination flags `stop`,
`seek` (with its target `seek_offset`) and `idle`, and the two
consume-once error slots. -/
structure BufferedInputStream where
  size : Nat
  offset : Nat
  buf : List Bool
  stop : Bool
  seek : Bool
  seek_offset : Nat
  idle : Bool
  seek_error : Option Err
  read_error : Option Err
  deriving DecidableEq, Repr

namespace BufferedInputStream

/-- `BufferedInputStream::IsEOF`. -/
def IsEOF (s : BufferedInputStream) : Bool :=
  s.offset == s.size

/-- `BufferedInputStream::IsAvailable`. -/
def IsAvailable (s : BufferedInputStream) : Bool :=
  s.IsEOF || hasData s.buf s.offset

/-- What one evaluation pass of `BufferedInputStream::Read` does: return a
byte count, rethrow a pending error (consuming it), or block on
`client_cond` and re-evaluate after being woken. -/
inductive ReadOutcome where
  | bytes (n : Nat)
  | error (e : Err)
  | blocked
  deriving DecidableEq, Repr

/-- One pass of the wait loop of `BufferedInputStream::Read` with request
length `len`: the early-return on `offset >= size`, then one evaluation of
the loop body (data present / pending `read_error` / wake the idle worker
and wait). -/
def Read (s : BufferedInputStream) (len : Nat) : BufferedInputStream × ReadOutcome :=
  if s.size ≤ s.offset then (s, .bytes 0)
  else if hasData s.buf s.offset then
    let nbytes := min len (runLen s.buf s.offset)
    let s1 := { s with offset := s.offset + nbytes }
    if !s1.IsAvailable then
      ({ s1 with idle := false }, .bytes nbytes)
    else
      (s1, .bytes nbytes)
  else
    match s.read_error with
    | some e => ({ s with read_error := none }, .error e)
    | none =>
      if s.idle then ({ s with idle := false }, .blocked)
      else (s, .blocked)

/-- Whether `BufferedInputStream::Seek` returned without waiting (`done`)
or posted a request to the worker and blocked on `client_cond` until
`seek == false` (`blocked`). -/
inductive SeekOutcome where
  | done
  | blocked
  deriving DecidableEq, Repr

/-- `BufferedInputStream::Seek` up to (and including) posting the seek
request: the clamp path for `new_offset >= size`, the no-op path when the
buffer already has data at `new_offset`, and otherwise the request posting
(`seek_offset := new_offset; seek := true; wake worker; wait`). -/
def Seek (s : BufferedInputStream) (new_offset : Nat) : BufferedInputStream × SeekOutcome :=
  if s.size ≤ new_offset then
    ({ s with offset := s.size }, .done)
  else if hasData s.buf new_offset then
    ({ s with offset := new_offset }, .done)
  else
    ({ s with seek_offset := new_offset, seek := true }, .blocked)

/-- The tail of `BufferedInputStream::Seek` after `client_cond.wait` has
observed `seek == false`: rethrow a recorded `seek_error` (consuming it,
leaving `offset` untouched), otherwise commit `offset := new_offset`. -/
def seekResume (s : BufferedInputStream) (new_offset : Nat) :
    BufferedInputStream × Except Err Unit :=
  match s.seek_error with
  | some e => ({ s with seek_error := none }, .error e)
  | none => ({ s with offset := new_offset }, .ok ())

/-- Per-iteration snapshot of the underlying input stream as observed by
the worker: its current position, availability and EOF flags, and fault
injection for the `input->Seek` and `input->Read` calls the iteration may
make (`seekFail = some e` makes `input->Seek` throw `e`; `readResult` is
the byte count returned by `input->Read`, or the error it throws). -/
structure Env where
  srcPos : Nat
  srcAvail : Bool
  srcEof : Bool
  seekFail : Option Err
  readResult : Except Err Nat
  deriving Repr

/-- Which branch of the worker loop body ran. -/
inductive WAction where
  | exit
  | servedSeek
  | corrected
  | wentIdle
  | repositioned
  | prefetched
  | waited
  deriving DecidableEq, Repr

/-- Result of one worker-loop iteration: the updated shared state, the
branch taken, and whether `client_cond` was signalled. -/
structure WOut where
  state : BufferedInputStream
  action : WAction
  notifiedClient : Bool
  deriving DecidableEq, Repr

/-- Guard of the stale-position-correction branch of `RunThread`:
`!idle && !read_error && offset != input->GetOffset() && !IsAvailable()`. -/
def corrCond (s : BufferedInputStream) (env : Env) : Bool :=
  !s.idle && s.read_error.isNone && (s.offset != env.srcPos) && !s.IsAvailable

/-- Guard of the prefetch branch of `RunThread`:
`!idle && !read_error && input->IsAvailable() && !input->IsEOF()`. -/
def prefCond (s : BufferedInputStream) (env : Env) : Bool :=
  !s.idle && s.read_error.isNone && env.srcAvail && !env.srcEof

/-- One iteration of the worker loop `BufferedInputStream::RunThread`:
the `stop` check, then the `if`/`else if` chain — pending seek,
stale-position correction, prefetch (writable span empty: go idle or
reposition; otherwise read and commit), else wait on `wake_cond`. -/
def workerStep (s : BufferedInputStream) (env : Env) : WOut :=
  if s.stop then
    ⟨s, .exit, false⟩
  else if s.seek then
    let s1 := match env.seekFail with
      | some e => { s with seek_error := some e }
      | none => s
    ⟨{ s1 with idle := false, seek := false }, .servedSeek, true⟩
  else if corrCond s env then
    match env.seekFail with
    | some e => ⟨{ s with read_error := some e }, .corrected, false⟩
    | none => ⟨s, .corrected, false⟩
  else if prefCond s env then
    if writeLen s.buf env.srcPos = 0 then
      if s.IsAvailable then
        ⟨{ s with idle := true }, .wentIdle, false⟩
      else
        match env.seekFail with
        | some e => ⟨{ s with read_error := some e }, .repositioned, true⟩
        | none => ⟨s, .repositioned, false⟩
    else
      match env.readResult with
      | .ok n =>
        ⟨{ s with buf := commitRange s.buf env.srcPos (env.srcPos + n) }, .prefetched, true⟩
      | .error e =>
        ⟨{ s with read_error := some e }, .prefetched, true⟩
  else
    ⟨s, .waited, false⟩

/-- Well-formedness maintained by the coordination engine: the buffer
capacity equals `size` (the code asserts `size == buffer.size()`) and the
cursor stays within the stream. -/
def WF (s : BufferedInputStream) : Prop :=
  s.buf.length = s.size ∧ s.offset ≤ s.size

end BufferedInputStream

open BufferedInputStream

/-- A quiescent 2-byte stream whose first byte is buffered and whose
cursor sits on it. -/
def exDataAt0 : BufferedInputStream :=
  { size := 2, offset := 0, buf := [true, false], stop := false, seek := false,
    seek_offset := 0, idle := false, seek_error := none, read_error := none }

/-- A quiescent 2-byte stream with byte 0 buffered and the cursor at 1. -/
def exC3 : BufferedInputStream :=
  { size := 2, offset := 1, buf := [true, false], stop := false, seek := false,
    seek_offset := 0, idle := false, seek_error := none, read_error := none }

/-- A state with a pending seek request for the worker to service. -/
def exC2 : BufferedInputStream :=
  { size := 2, offset := 0, buf := [false, false], stop := false, seek := true,
    seek_offset := 1, idle := true, seek_error := none, read_error := none }

/-- An environment whose injected `input->Seek` fails with error 9. -/
def exC2env : Env :=
  { srcPos := 0, srcAvail := true, srcEof := false, seekFail := some 9,
    readResult := Except.ok 0 }

/-- A quiescent state with nothing buffered at offset 1 (blocking-seek
target). -/
def exC4s : BufferedInputStream :=
  { size := 2, offset := 0, buf := [true, false], stop := false, seek := false,
    seek_offset := 0, idle := false, seek_error := none, read_error := none }

/-- A post-wait state (`seek` already cleared) carrying seek error 4. -/
def exC4t : BufferedInputStream :=
  { size := 2, offset := 0, buf := [false, false], stop := false, seek := false,
    seek_offset := 1, idle := false, seek_error := some 4, read_error := none }

/-- A state in which the worker's stale-position-correction guard holds:
not idle, no pending read error, nothing buffered at the cursor. -/
def exC5 : BufferedInputStream :=
  { size := 2, offset := 1, buf := [false, false], stop := false, seek := false,
    seek_offset := 0, idle := false, seek_error := none, read_error := none }

/-- An environment with the source at position 0 (drifted away from the
cursor) whose injected `input->Seek` fails with error 7. -/
def exC5env : Env :=
  { srcPos := 0, srcAvail := true, srcEof := false, seekFail := some 7,
    readResult := Except.ok 0 }

/-- A state with a pending read error 3 and nothing buffered at the
cursor. -/
def exC6 : BufferedInputStream :=
  { size := 2, offset := 0, buf := [false, false], stop := false, seek := false,
    seek_offset := 0, idle := false, seek_error := none, read_error := some 3 }

/-- A state with a pending seek error 5 and byte 0 buffered. -/
def exC9 : BufferedInputStream :=
  { size := 2, offset := 0, buf := [true, false], stop := false, seek := false,
    seek_offset := 0, idle := false, seek_error := some 5, read_error := none }

/-- An empty 2-byte stream at cursor 0, used to drive a blocking seek. -/
def c8s0 : BufferedInputStream :=
  { size := 2, offset := 0, buf := [false, false], stop := false, seek := false,
    seek_offset := 0, idle := false, seek_error := none, read_error := none }

/-- An environment in which the worker's `input->Seek` succeeds but no
source data is available yet. -/
def c8env : Env :=
  { srcPos := 0, srcAvail := false, srcEof := false, seekFail := none,
    readResult := Except.ok 0 }

/-- `c8s0` after `Seek(1)` posted its request (first call, blocking path). -/
def c8s1 : BufferedInputStream := (Seek c8s0 1).1

/-- `c8s1` after the worker serviced the seek request. -/
def c8s2 : BufferedInputStream := (workerStep c8s1 c8env).state

/-- `c8s2` after the blocked `Seek(1)` resumed and committed its offset. -/
def c8s3 : BufferedInputStream := (seekResume c8s2 1).1

theorem runLenAux_le (l : List Bool) : runLenAux l ≤ l.length := by
  induction l with
  | nil => simp [runLenAux]
  | cons b t ih => cases b <;> (simp [runLenAux]; try omega)

theorem runLen_le (buf : List Bool) (i : Nat) : runLen buf i ≤ buf.length - i := by
  have h := runLenAux_le (buf.drop i)
  simpa [runLen, List.length_drop] using h

theorem commitRange_length (l : List Bool) (a b : Nat) :
    (commitRange l a b).length = l.length := by
  induction l generalizing a b with
  | nil => rfl
  | cons x t ih => simp [commitRange, ih]

/-- C3: a call to `Seek(new_offset)` with `new_offset < size` and data
already buffered at `new_offset` sets `offset := new_offset` and returns
without blocking; every other field — `seek`, `seek_offset`, `idle`, both
error slots, and the buffer contents — is left unchanged (the record
update touches only `offset`), and no request is posted to the worker, so
no operation ever reaches the underlying source. -/
theorem C3_noop_seek_frame (s : BufferedInputStream) (n : Nat)
    (h1 : n < s.size) (h2 : hasData s.buf n = true) :
    Seek s n = ({ s with offset := n }, SeekOutcome.done) := by
  unfold BufferedInputStream.Seek
  rw [if_neg (by omega), if_pos h2]

theorem C3_noop_seek_frame_witness :
    Seek exC3 0 = ({ exC3 with offset := 0 }, SeekOutcome.done) :=
  C3_noop_seek_frame exC3 0 (by decide) (by decide)

/-- C8 counterexample: `seek(x)` immediately followed by `seek(x)` is not
always a no-op. From an empty buffer, `seek(1)` takes the blocking path;
after the worker services the request (successfully) and the call resumes
with `offset = 1`, no data is buffered at 1, so a second `seek(1)` takes
the blocking path again — it posts a new request to the worker and blocks
instead of returning instantly. -/
theorem C8_counterexample :
    (Seek c8s0 1).2 = SeekOutcome.blocked ∧
    (workerStep c8s1 c8env).state.seek = false ∧
    (seekResume c8s2 1).2 = Except.ok () ∧
    c8s3.offset = 1 ∧
    (Seek c8s3 1).2 = SeekOutcome.blocked ∧
    (Seek c8s3 1).1.seek = true := by decide

/-- C8 (amended): when the first `seek(x)` completes via a fast path —
`x ≥ size` (clamp) or data already buffered at `x` — an immediately
following `seek(x)` is a no-op: it returns without blocking and leaves the
state exactly as the first call left it. (When the first call took the
blocking path, the second call may block again, as no data need be
buffered at `x` when it returns.) -/
theorem C8_fastpath_idempotent (s : BufferedInputStream) (x : Nat)
    (h : s.size ≤ x ∨ hasData s.buf x = true) :
    Seek (Seek s x).1 x = ((Seek s x).1, SeekOutcome.done) := by
  unfold BufferedInputStream.Seek
  rcases h with h | h
  · simp [h]
  · by_cases hx : s.size ≤ x
    · simp [hx]
    · simp [hx, h]

theorem C8_fastpath_idempotent_witness :
    Seek (Seek exC3 0).1 0 = ((Seek exC3 0).1, SeekOutcome.done) :=
  C8_fastpath_idempotent exC3 0 (Or.inr (by decide))

/-- C9: a pending `seek_error` survives both fast-path seeks untouched
(in fact `Seek` itself never reads or clears the slot, and the fast paths
return successfully with it still set); only the post-wait tail of the
blocking path (`seekResume`) consumes it, rethrowing the stored error. -/
theorem C9_fastpath_preserves_seek_error (s : BufferedInputStream) (n : Nat) (e : Err)
    (he : s.seek_error = some e) :
    (Seek s n).1.seek_error = some e ∧
    ((s.size ≤ n ∨ hasData s.buf n = true) → (Seek s n).2 = SeekOutcome.done) ∧
    (seekResume s n).1.seek_error = none ∧
    (seekResume s n).2 = Except.error e := by
  refine ⟨?_, ?_, ?_, ?_⟩
  · unfold BufferedInputStream.Seek
    split
    · exact he
    · split
      · exact he
      · exact he
  · intro h
    unfold BufferedInputStream.Seek
    rcases h with h | h
    · simp [h]
    · split
      · rfl
      · simp [h]
  · unfold BufferedInputStream.seekResume
    rw [he]
  · unfold BufferedInputStream.seekResume
    rw [he]

theorem C9_witness :
    (Seek exC9 0).1.seek_error = some 5 ∧ (Seek exC9 0).2 = SeekOutcome.done := by
  have h := C9_fastpath_preserves_seek_error exC9 0 5 rfl
  exact ⟨h.1, h.2.1 (Or.inr (by decide))⟩

/-- C10: `IsAvailable` and `IsEOF` are embedded as pure functions of the
shared state — faithful to the source, which only reads `offset`, `size`
and the buffer under the lock and never writes any field — and
`IsAvailable` holds exactly when `offset = size` (EOF) or the sparse
buffer has a non-empty run at `offset`; `IsEOF` holds exactly when
`offset = size`. -/
theorem C10_observers (s : BufferedInputStream) :
    (IsAvailable s = true ↔ s.offset = s.size ∨ 0 < runLen s.buf s.offset) ∧
    (IsEOF s = true ↔ s.offset = s.size) := by
  constructor
  · simp [IsAvailable, IsEOF, hasData]
    omega
  · simp [IsEOF]

/-- C1 counterexample: the claim's guarantee "never returns 0 except at
end-of-stream" fails for a zero-length request. With data buffered at the
cursor and `maxLength = 0`, `Read` copies `min(0, runLength) = 0` bytes
and returns 0 although the cursor is strictly before end-of-stream. -/
theorem C1_counterexample :
    (Read exDataAt0 0).2 = ReadOutcome.bytes 0 ∧
    exDataAt0.offset < exDataAt0.size := by decide

/-- C1 (amended, requiring `maxLength > 0`): under `offset ≤ size`, if
`offset = size` then `Read` returns 0 at once with the state unchanged; if
the buffer has data at `offset`, it returns exactly
`min(maxLength, availableRunLength) > 0` bytes and advances `offset` by
that amount; a zero byte count is returned only at end-of-stream; and an
error outcome is always a propagated pending `read_error`. -/
theorem C1_read_contract (s : BufferedInputStream) (len : Nat)
    (hlen : 0 < len) (hoff : s.offset ≤ s.size) :
    (s.offset = s.size → Read s len = (s, ReadOutcome.bytes 0)) ∧
    (s.offset < s.size → 0 < runLen s.buf s.offset →
      (Read s len).2 = ReadOutcome.bytes (min len (runLen s.buf s.offset)) ∧
      0 < min len (runLen s.buf s.offset) ∧
      (Read s len).1.offset = s.offset + min len (runLen s.buf s.offset)) ∧
    (∀ n, (Read s len).2 = ReadOutcome.bytes n → n = 0 → s.offset = s.size) ∧
    (∀ e, (Read s len).2 = ReadOutcome.error e → s.read_error = some e) := by
  refine ⟨?_, ?_, ?_, ?_⟩
  · intro h
    unfold BufferedInputStream.Read
    rw [if_pos (by omega)]
  · intro hlt hr
    unfold BufferedInputStream.Read
    rw [if_neg (by omega), if_pos (by simp [hasData]; omega)]
    dsimp only
    refine ⟨?_, by omega, ?_⟩ <;> (split <;> rfl)
  · intro n
    unfold BufferedInputStream.Read
    dsimp only
    split
    · intro _ _
      omega
    · split
      · next hd =>
        split <;>
          (intro h hn
           simp only [ReadOutcome.bytes.injEq] at h
           simp only [hasData, bne_iff_ne, ne_eq] at hd
           omega)
      · split
        · intro h
          exact absurd h (by simp)
        · split <;> (intro h; exact absurd h (by simp))
  · intro e
    unfold BufferedInputStream.Read
    dsimp only
    split
    · intro h
      exact absurd h (by simp)
    · split
      · split <;> (intro h; exact absurd h (by simp))
      · split
        · next e2 h2 =>
          intro h
          simp only [ReadOutcome.error.injEq] at h
          rw [h2, h]
        · split <;> (intro h; exact absurd h (by simp))

theorem C1_read_contract_witness :
    Read exDataAt0 1 = (exDataAt0, ReadOutcome.bytes 0) ∨
    (Read exDataAt0 1).2 = ReadOutcome.bytes (min 1 (runLen exDataAt0.buf exDataAt0.offset)) := by
  have h := C1_read_contract exDataAt0 1 (by decide) (by decide)
  exact Or.inr (h.2.1 (by decide) (by decide)).1

/-- C4: the blocking seek path. With `new_offset < size` and no buffered
data there, `Seek` records the target, raises the `seek` flag and blocks
(outcome `blocked`) until the worker clears the flag; on resumption
(`seekResume`, reached only once `seek = false`), a recorded seek error is
rethrown and consumed with `offset` untouched, otherwise
`offset := new_offset`. Caller-initiated seek failures surface only
through `seek`: `Read` propagates only `read_error` and never reads or
writes `seek_error`. -/
theorem C4_blocking_seek (s t : BufferedInputStream) (n : Nat)
    (h1 : n < s.size) (h2 : hasData s.buf n = false) (_ht : t.seek = false) :
    Seek s n = ({ s with seek_offset := n, seek := true }, SeekOutcome.blocked) ∧
    (∀ e, t.seek_error = some e →
        seekResume t n = ({ t with seek_error := none }, Except.error e)) ∧
    (t.seek_error = none → seekResume t n = ({ t with offset := n }, Except.ok ())) ∧
    (∀ len e, (Read t len).2 = ReadOutcome.error e → t.read_error = some e) ∧
    (∀ len, (Read t len).1.seek_error = t.seek_error) := by
  refine ⟨?_, ?_, ?_, ?_, ?_⟩
  · unfold BufferedInputStream.Seek
    rw [if_neg (by omega), if_neg (by simp [h2])]
  · intro e he
    unfold BufferedInputStream.seekResume
    rw [he]
  · intro he
    unfold BufferedInputStream.seekResume
    rw [he]
  · intro len e
    unfold BufferedInputStream.Read
    dsimp only
    split
    · intro h
      exact absurd h (by simp)
    · split
      · split <;> (intro h; exact absurd h (by simp))
      · split
        · next e2 h2e =>
          intro h
          simp only [ReadOutcome.error.injEq] at h
          rw [h2e, h]
        · split <;> (intro h; exact absurd h (by simp))
  · intro len
    unfold BufferedInputStream.Read
    dsimp only
    split
    · rfl
    · split
      · split <;> rfl
      · split
        · rfl
        · split <;> rfl

theorem C4_blocking_seek_witness :
    Seek exC4s 1 = ({ exC4s with seek_offset := 1, seek := true }, SeekOutcome.blocked) ∧
    seekResume exC4t 1 = ({ exC4t with seek_error := none }, Except.error 4) := by
  have h := C4_blocking_seek exC4s exC4t 1 (by decide) (by decide) (by decide)
  exact ⟨h.1, h.2.1 4 rfl⟩

/-- C5: when the worker takes the stale-position-correction branch (not
stopped, no pending seek request, guard `corrCond`: not idle, no pending
read error, source position differs from the cursor, nothing buffered at
the cursor) and the underlying `input->Seek` fails, the failure is stored
in `read_error`; `seek_error` is untouched, so the failure can only reach
the consumer through a later `Read`. -/
theorem C5_correction_error_is_read_error (s : BufferedInputStream) (env : Env) (e : Err)
    (h0 : s.stop = false) (h1 : s.seek = false)
    (hc : corrCond s env = true) (hf : env.seekFail = some e) :
    workerStep s env = ⟨{ s with read_error := some e }, WAction.corrected, false⟩ ∧
    (workerStep s env).state.seek_error = s.seek_error := by
  have hw : workerStep s env = ⟨{ s with read_error := some e }, WAction.corrected, false⟩ := by
    unfold BufferedInputStream.workerStep
    rw [h0, h1, hf]
    simp [hc]
  exact ⟨hw, by rw [hw]⟩

theorem C5_correction_error_witness :
    workerStep exC5 exC5env = ⟨{ exC5 with read_error := some 7 }, WAction.corrected, false⟩ :=
  (C5_correction_error_is_read_error exC5 exC5env 7 rfl rfl (by decide) rfl).1

/-- C6: errors are consume-once. With a pending `read_error` and no data
at the cursor (cursor before EOF), `Read` rethrows exactly that error and
clears the slot in the same call; any state whose `read_error` slot is
empty can never produce an error outcome from `Read` (so a repeat call
does not re-raise, and the emptied slot is free for a later independent
failure). Symmetrically, `seekResume` clears `seek_error` when it rethrows
it, and a second resume then succeeds. -/
theorem C6_consume_once (s : BufferedInputStream) (e : Err) (len : Nat)
    (hoff : s.offset < s.size) (hnd : hasData s.buf s.offset = false)
    (herr : s.read_error = some e) :
    Read s len = ({ s with read_error := none }, ReadOutcome.error e) ∧
    (∀ t : BufferedInputStream, t.read_error = none →
        ∀ e2 m, (Read t m).2 ≠ ReadOutcome.error e2) ∧
    (∀ t : BufferedInputStream, ∀ e2 m, t.seek_error = some e2 →
        (seekResume t m).1.seek_error = none ∧
        ∀ m2, (seekResume (seekResume t m).1 m2).2 = Except.ok ()) := by
  refine ⟨?_, ?_, ?_⟩
  · unfold BufferedInputStream.Read
    rw [if_neg (by omega), if_neg (by simp [hnd]), herr]
  · intro t h e2 m
    unfold BufferedInputStream.Read
    dsimp only
    split
    · simp
    · split
      · split <;> simp
      · rw [h]
        split
        · next heq => exact absurd heq (by simp)
        · split <;> simp
  · intro t e2 m he
    unfold BufferedInputStream.seekResume
    rw [he]
    exact ⟨rfl, fun m2 => rfl⟩

theorem C6_consume_once_witness :
    Read exC6 1 = ({ exC6 with read_error := none }, ReadOutcome.error 3) ∧
    (Read { exC6 with read_error := none } 1).2 ≠ ReadOutcome.error 3 := by
  have h := C6_consume_once exC6 3 1 (by decide) (by decide) rfl
  exact ⟨h.1, h.2.1 _ rfl 3 1⟩

/-- C2: one worker-loop iteration follows the strict priority of the
`if`/`else if` chain over the shared state. If `stop` is set the loop
exits with nothing changed (terminal). Otherwise a pending seek request is
serviced first — before any correction or prefetch, whatever the guards
`corrCond`/`prefCond` say — and servicing it clears `idle`, clears `seek`
and signals the waiting consumer for every environment, i.e. whether or
not the underlying seek failed. Otherwise the correction branch runs when
its guard holds; otherwise the prefetch branch (going idle, repositioning,
or reading and committing); otherwise the worker blocks on `wake_cond`. -/
theorem C2_worker_priority (s : BufferedInputStream) (env : Env) :
    (s.stop = true → workerStep s env = ⟨s, WAction.exit, false⟩) ∧
    (s.stop = false → s.seek = true →
        (workerStep s env).action = WAction.servedSeek ∧
        (workerStep s env).state.idle = false ∧
        (workerStep s env).state.seek = false ∧
        (workerStep s env).notifiedClient = true) ∧
    (s.stop = false → s.seek = false → corrCond s env = true →
        (workerStep s env).action = WAction.corrected) ∧
    (s.stop = false → s.seek = false → corrCond s env = false → prefCond s env = true →
        ((workerStep s env).action = WAction.wentIdle ∨
         (workerStep s env).action = WAction.repositioned ∨
         (workerStep s env).action = WAction.prefetched)) ∧
    (s.stop = false → s.seek = false → corrCond s env = false → prefCond s env = false →
        workerStep s env = ⟨s, WAction.waited, false⟩) := by
  refine ⟨?_, ?_, ?_, ?_, ?_⟩
  · intro h0
    simp [workerStep, h0]
  · intro h0 h1
    unfold BufferedInputStream.workerStep
    rw [h0, h1]
    exact ⟨rfl, rfl, rfl, rfl⟩
  · intro h0 h1 hc
    cases hf : env.seekFail <;> simp [workerStep, h0, h1, hc, hf]
  · intro h0 h1 hc hp
    simp only [workerStep, h0, h1, hc, hp]
    simp only [Bool.false_eq_true, if_false, if_true]
    split
    · split
      · exact Or.inl rfl
      · split <;> exact Or.inr (Or.inl rfl)
    · split <;> exact Or.inr (Or.inr rfl)
  · intro h0 h1 hc hp
    simp [workerStep, h0, h1, hc, hp]

theorem C2_worker_priority_witness :
    (workerStep exC2 exC2env).action = WAction.servedSeek ∧
    (workerStep exC2 exC2env).state.idle = false ∧
    (workerStep exC2 exC2env).state.seek = false ∧
    (workerStep exC2 exC2env).notifiedClient = true :=
  (C2_worker_priority exC2 exC2env).2.1 rfl rfl

/-- C7: the invariant `0 ≤ offset ≤ size` (the lower bound is inherent in
the `Nat` embedding) together with the fixed buffer capacity
`buf.length = size` is preserved by every operation: `Read` advances the
cursor by at most the buffered run length at `offset`, which never reaches
past `size`; `Seek` clamps targets `≥ size` to exactly `size`; the
blocking-path commit `seekResume` only ever runs for targets `< size`; and
the worker never moves the cursor and commits data without resizing the
buffer. -/
theorem C7_offset_invariant (s : BufferedInputStream) (env : Env) (len n : Nat)
    (hwf : WF s) :
    WF (Read s len).1 ∧ WF (Seek s n).1 ∧
    (n < s.size → WF (seekResume s n).1) ∧
    WF (workerStep s env).state := by
  obtain ⟨hlen, hoff⟩ := hwf
  refine ⟨?_, ?_, ?_, ?_⟩
  · have hb := runLen_le s.buf s.offset
    unfold BufferedInputStream.Read
    dsimp only
    repeat' split
    all_goals first
      | exact ⟨hlen, hoff⟩
      | exact ⟨hlen, by dsimp only; omega⟩
  · unfold BufferedInputStream.Seek
    repeat' split
    all_goals exact ⟨hlen, by dsimp only; omega⟩
  · intro hn
    unfold BufferedInputStream.seekResume
    split
    · exact ⟨hlen, hoff⟩
    · exact ⟨hlen, by dsimp only; omega⟩
  · unfold BufferedInputStream.workerStep
    dsimp only
    repeat' split
    all_goals first
      | exact ⟨hlen, hoff⟩
      | exact ⟨by simpa [commitRange_length] using hlen, hoff⟩

theorem C7_offset_invariant_witness :
    WF (Read exC3 1).1 ∧ WF (Seek exC3 0).1 := by
  have h := C7_offset_invariant exC3 exC2env 1 0 ⟨by decide, by decide⟩
  exact ⟨h.1, h.2.1⟩
